import Mathlib

/-!
Formal model of the Lab Notebook core subsystems, translated from the Python
sources of the repository:

* `codex/core/storage.py`  — content-addressable blob store (`StorageManager`),
* `codex/core/entry.py`    — entry state machine, variations, lineage traversal,
* `codex/db/models.py`     — the relational schema constraints that matter to
  the core (composite primary key of `entry_lineage`, primary key and unique
  `hash` column of `artifacts`),
* `codex/integrations/registry.py` — integration dispatch.

Python strings are modelled as `List Char`, `bytes` as `List Nat` (each element
a byte value), filesystem directories and database tables as association lists
in insertion order, and `dict` as an association list with Python's in-place
update / insertion-order semantics.  SQLAlchemy sessions commit at the end of
each operation and roll back on an escaping exception, which the model renders
as `Except`: an operation either returns the fully-updated state or an error
with the pre-operation state unchanged.  SHA-256 is implemented in full
(FIPS 180-4) over byte lists so that hashes are computed, not stubbed.
-/

set_option maxRecDepth 1000000

/-- Python `str`, modelled as its list of characters. -/
abbrev PyStr : Type := List Char

/-- Coerce a Lean string literal to the Python string model. -/
def pyStr (s : String) : PyStr := s.toList

/-- Python `bytes`, modelled as the list of byte values. -/
abbrev PyBytes : Type := List Nat

/-- First-match association-list lookup (models dict lookup / table lookup by
unique key over rows kept in insertion order). -/
def alookup {α β : Type} [DecidableEq α] : List (α × β) → α → Option β
  | [], _ => none
  | (k, v) :: rest, k' => if k = k' then some v else alookup rest k'

/-- In-place update à la Python `d[k] = v`: replace the first binding of `k`
keeping its position, append a new binding otherwise. -/
def aset {α β : Type} [DecidableEq α] (l : List (α × β)) (k : α) (v : β) :
    List (α × β) :=
  match l with
  | [] => [(k, v)]
  | (k', v') :: rest => if k' = k then (k, v) :: rest else (k', v') :: aset rest k v

theorem alookup_aset_self {α β : Type} [DecidableEq α] (l : List (α × β))
    (k : α) (v : β) : alookup (aset l k v) k = some v := by
  induction l with
  | nil => simp [aset, alookup]
  | cons hd tl ih =>
    by_cases h : hd.1 = k
    · simp [aset, h, alookup]
    · simp [aset, h, alookup, ih]

theorem alookup_aset_ne {α β : Type} [DecidableEq α] (l : List (α × β))
    (k k' : α) (v : β) (hne : k' ≠ k) :
    alookup (aset l k' v) k = alookup l k := by
  induction l with
  | nil => simp [aset, alookup, hne]
  | cons hd tl ih =>
    by_cases h : hd.1 = k'
    · simp [aset, h, alookup, hne, ih]
    · simp only [aset, h, if_false, alookup]
      by_cases h2 : hd.1 = k <;> simp [h2, ih]

/-! ## SHA-256 (FIPS 180-4), over byte lists

Models Python's `hashlib.sha256(data).hexdigest()` as used by
`StorageManager.store` and `Entry.add_artifact`.  All word arithmetic is done
in `Nat` with explicit reduction modulo `2^32`. -/

def pow32 : Nat := 4294967296

def add32 (x y : Nat) : Nat := (x + y) % pow32

def rotr32 (x n : Nat) : Nat := ((x >>> n) ||| (x <<< (32 - n))) % pow32

def not32 (x : Nat) : Nat := x ^^^ 4294967295

/-- The 64 SHA-256 round constants, written in decimal. -/
def shaK : List Nat :=
  [1116352408, 1899447441, 3049323471, 3921009573, 961987163, 1508970993,
   2453635748, 2870763221, 3624381080, 310598401, 607225278, 1426881987,
   1925078388, 2162078206, 2614888103, 3248222580, 3835390401, 4022224774,
   264347078, 604807628, 770255983, 1249150122, 1555081692, 1996064986,
   2554220882, 2821834349, 2952996808, 3210313671, 3336571891, 3584528711,
   113926993, 338241895, 666307205, 773529912, 1294757372, 1396182291,
   1695183700, 1986661051, 2177026350, 2456956037, 2730485921, 2820302411,
   3259730800, 3345764771, 3516065817, 3600352804, 4094571909, 275423344,
   430227734, 506948616, 659060556, 883997877, 958139571, 1322822218,
   1537002063, 1747873779, 1955562222, 2024104815, 2227730452, 2361852424,
   2428436474, 2756734187, 3204031479, 3329325298]

structure Hash8 where
  h0 : Nat
  h1 : Nat
  h2 : Nat
  h3 : Nat
  h4 : Nat
  h5 : Nat
  h6 : Nat
  h7 : Nat

/-- SHA-256 initial hash value, written in decimal. -/
def shaH0 : Hash8 :=
  ⟨1779033703, 3144134277, 1013904242, 2773480762,
   1359893119, 2600822924, 528734635, 1541459225⟩

/-- Big-endian 8-byte encoding of the message bit length. -/
def lenBytesBE (n : Nat) : List Nat :=
  [n >>> 56 % 256, n >>> 48 % 256, n >>> 40 % 256, n >>> 32 % 256,
   n >>> 24 % 256, n >>> 16 % 256, n >>> 8 % 256, n % 256]

/-- SHA-256 padding: append `0x80`, zero bytes up to 56 mod 64, then the
bit length; the padded length is a multiple of 64. -/
def shaPad (msg : List Nat) : List Nat :=
  msg ++ [0x80] ++ List.replicate ((119 - (msg.length % 64)) % 64) 0 ++
    lenBytesBE (msg.length * 8)

/-- Group bytes into big-endian 32-bit words. -/
def toWords : List Nat → List Nat
  | b0 :: b1 :: b2 :: b3 :: rest =>
      (b0 <<< 24 ||| b1 <<< 16 ||| b2 <<< 8 ||| b3) :: toWords rest
  | _ => []

/-- Group words into 16-word blocks. -/
def toBlocks : List Nat → List (List Nat)
  | w0 :: w1 :: w2 :: w3 :: w4 :: w5 :: w6 :: w7 ::
    w8 :: w9 :: w10 :: w11 :: w12 :: w13 :: w14 :: w15 :: rest =>
      [w0, w1, w2, w3, w4, w5, w6, w7, w8, w9, w10, w11, w12, w13, w14, w15]
        :: toBlocks rest
  | _ => []

def smallSig0 (x : Nat) : Nat := rotr32 x 7 ^^^ rotr32 x 18 ^^^ (x >>> 3)

def smallSig1 (x : Nat) : Nat := rotr32 x 17 ^^^ rotr32 x 19 ^^^ (x >>> 10)

/-- Extend a 16-word block by `n` scheduled words. -/
def extendWords : List Nat → Nat → List Nat
  | ws, 0 => ws
  | ws, n + 1 =>
      extendWords
        (ws ++ [add32 (add32 (ws.getD (ws.length - 16) 0)
                             (smallSig0 (ws.getD (ws.length - 15) 0)))
                      (add32 (ws.getD (ws.length - 7) 0)
                             (smallSig1 (ws.getD (ws.length - 2) 0)))]) n

structure Regs where
  ra : Nat
  rb : Nat
  rc : Nat
  rd : Nat
  re : Nat
  rf : Nat
  rg : Nat
  rh : Nat

/-- One SHA-256 compression round. -/
def shaRound (r : Regs) (wk : Nat × Nat) : Regs :=
  let s1 := rotr32 r.re 6 ^^^ rotr32 r.re 11 ^^^ rotr32 r.re 25
  let ch := (r.re &&& r.rf) ^^^ (not32 r.re &&& r.rg)
  let temp1 := add32 (add32 (add32 r.rh s1) (add32 ch wk.2)) wk.1
  let s0 := rotr32 r.ra 2 ^^^ rotr32 r.ra 13 ^^^ rotr32 r.ra 22
  let maj := (r.ra &&& r.rb) ^^^ (r.ra &&& r.rc) ^^^ (r.rb &&& r.rc)
  ⟨add32 temp1 (add32 s0 maj), r.ra, r.rb, r.rc,
   add32 r.rd temp1, r.re, r.rf, r.rg⟩

/-- Compress one 16-word block into the running hash. -/
def shaCompress (hs : Hash8) (block : List Nat) : Hash8 :=
  let r := ((extendWords block 48).zip shaK).foldl shaRound
    ⟨hs.h0, hs.h1, hs.h2, hs.h3, hs.h4, hs.h5, hs.h6, hs.h7⟩
  ⟨add32 hs.h0 r.ra, add32 hs.h1 r.rb, add32 hs.h2 r.rc, add32 hs.h3 r.rd,
   add32 hs.h4 r.re, add32 hs.h5 r.rf, add32 hs.h6 r.rg, add32 hs.h7 r.rh⟩

def wordBytesBE (w : Nat) : List Nat :=
  [w >>> 24 % 256, w >>> 16 % 256, w >>> 8 % 256, w % 256]

/-- The 32-byte SHA-256 digest of a byte list. -/
def sha256Bytes (msg : List Nat) : List Nat :=
  let hs := (toBlocks (toWords (shaPad msg))).foldl shaCompress shaH0
  wordBytesBE hs.h0 ++ wordBytesBE hs.h1 ++ wordBytesBE hs.h2 ++
  wordBytesBE hs.h3 ++ wordBytesBE hs.h4 ++ wordBytesBE hs.h5 ++
  wordBytesBE hs.h6 ++ wordBytesBE hs.h7

/-- Lowercase hex digit for a value below 16. -/
def hexDigitChar (d : Nat) : Char :=
  Char.ofNat (if d < 10 then 48 + d else 87 + d)

def byteHex (b : Nat) : List Char :=
  [hexDigitChar (b / 16 % 16), hexDigitChar (b % 16)]

/-- `hashlib.sha256(msg).hexdigest()`: the lowercase hex digest. -/
def sha256Hex (msg : List Nat) : PyStr :=
  (sha256Bytes msg).flatMap byteHex

/-- Sanity anchor: the digest of the empty byte string matches the published
SHA-256 test vector. -/
theorem sha256Hex_empty :
    sha256Hex [] =
      pyStr "e3b0c44298fc1c149afbf4c8996fb92427ae41e4649b934ca495991b7852b855" := by
  decide

/-! ## Content-addressable storage (`codex/core/storage.py`)

The storage root is modelled as two association lists mapping paths (lists of
path segments relative to `storage_path`) to byte contents; `Path.exists` is
lookup success, `write_bytes` is `aset`.  The PIL image pipeline inside
`_generate_thumbnail` (the only third-party effect) is abstracted as a
function `pil : bytes → Except Unit bytes` producing the re-encoded JPEG
thumbnail or failing like `Image.open` does on undecodable data. -/

abbrev StorePath : Type := List PyStr

structure StoreFS where
  blobs : List (StorePath × PyBytes)
  thumbnails : List (StorePath × PyBytes)

def emptyFS : StoreFS := ⟨[], []⟩

/-- The literal `"sha256:"`. -/
def shaTag : PyStr := pyStr "sha256:"

/-- The literal `"image/"`. -/
def imageTag : PyStr := pyStr "image/"

/-- Strip an optional `sha256:` from the front of a content reference, as done
at the top of `retrieve`, `get_blob_path`, `get_thumbnail`, etc. -/
def stripSha (s : PyStr) : PyStr :=
  if List.isPrefixOf shaTag s then List.drop 7 s else s

/-- `blobs / hash[:2] / hash[2:4] / hash` relative to the storage root. -/
def blobPathOf (h : PyStr) : StorePath :=
  [pyStr "blobs", List.take 2 h, List.take 2 (List.drop 2 h), h]

/-- `thumbnails / hash[:2] / hash[2:4] / (hash + ".thumb.jpg")`. -/
def thumbPathOf (h : PyStr) : StorePath :=
  [pyStr "thumbnails", List.take 2 h, List.take 2 (List.drop 2 h),
   h ++ pyStr ".thumb.jpg"]

/-- `StorageManager._generate_thumbnail`: inside a `try`, skip if the
thumbnail already exists, otherwise decode/convert/resize/save via PIL; every
exception is caught and discarded (`except Exception: pass`). -/
def StorageManager.generate_thumbnail (pil : PyBytes → Except Unit PyBytes)
    (fs : StoreFS) (data : PyBytes) (hash_value : PyStr) : StoreFS :=
  match
    (if (alookup fs.thumbnails (thumbPathOf hash_value)).isSome then
       Except.ok fs
     else
       match pil data with
       | Except.ok thumb =>
           Except.ok
             { fs with
               thumbnails := aset fs.thumbnails (thumbPathOf hash_value) thumb }
       | Except.error e => Except.error e : Except Unit StoreFS)
  with
  | Except.ok fs' => fs'
  | Except.error _ => fs

/-- The blob-write step of `store`: `if not blob_path.exists(): write_bytes`. -/
def storeBlob (fs : StoreFS) (data : PyBytes) (hash_value : PyStr) : StoreFS :=
  if (alookup fs.blobs (blobPathOf hash_value)).isSome then fs
  else { fs with blobs := aset fs.blobs (blobPathOf hash_value) data }

/-- Whether a call of `store` on this state performs the primary blob write
(the negation of the `blob_path.exists()` check). -/
def storeWrites (fs : StoreFS) (data : PyBytes) : Bool :=
  !(alookup fs.blobs (blobPathOf (sha256Hex data))).isSome

structure StoreResult where
  ref : PyStr
  fs : StoreFS

/-- `StorageManager.store`: hash, shard, write-if-absent, best-effort
thumbnail for `image/*`, return `sha256:<hex>`. -/
def StorageManager.store (pil : PyBytes → Except Unit PyBytes) (fs : StoreFS)
    (data : PyBytes) (artifact_type : PyStr) : StoreResult :=
  { ref := shaTag ++ sha256Hex data
    fs :=
      if List.isPrefixOf imageTag artifact_type then
        StorageManager.generate_thumbnail pil
          (storeBlob fs data (sha256Hex data)) data (sha256Hex data)
      else storeBlob fs data (sha256Hex data) }

/-- `StorageManager.retrieve`: strip the optional prefix, resolve the sharded
path, return bytes or `None`. -/
def StorageManager.retrieve (fs : StoreFS) (hash_value : PyStr) :
    Option PyBytes :=
  alookup fs.blobs (blobPathOf (stripSha hash_value))

/-- `StorageManager.get_blob_path`. -/
def StorageManager.get_blob_path (hash_value : PyStr) : StorePath :=
  blobPathOf (stripSha hash_value)

/-- `StorageManager.get_thumbnail_path`. -/
def StorageManager.get_thumbnail_path (hash_value : PyStr) : StorePath :=
  thumbPathOf (stripSha hash_value)

theorem stripSha_tagged (h : PyStr) : stripSha (shaTag ++ h) = h := by
  have hpre : List.isPrefixOf shaTag (shaTag ++ h) = true := by
    simp [List.isPrefixOf_iff_prefix, List.prefix_append]
  simp only [stripSha, hpre, if_true]
  show List.drop 7 (List.append shaTag h) = h
  rfl

theorem generate_thumbnail_blobs (pil : PyBytes → Except Unit PyBytes)
    (fs : StoreFS) (data : PyBytes) (h : PyStr) :
    (StorageManager.generate_thumbnail pil fs data h).blobs = fs.blobs := by
  unfold StorageManager.generate_thumbnail
  by_cases hex : (alookup fs.thumbnails (thumbPathOf h)).isSome
  · simp [hex]
  · simp only [hex, if_false]
    cases pil data <;> simp

theorem store_fs_blobs (pil : PyBytes → Except Unit PyBytes) (fs : StoreFS)
    (data : PyBytes) (t : PyStr) :
    (StorageManager.store pil fs data t).fs.blobs =
      (storeBlob fs data (sha256Hex data)).blobs := by
  unfold StorageManager.store
  by_cases him : List.isPrefixOf imageTag t <;>
    simp [him, generate_thumbnail_blobs]

theorem storeBlob_thumbnails (fs : StoreFS) (data : PyBytes) (h : PyStr) :
    (storeBlob fs data h).thumbnails = fs.thumbnails := by
  unfold storeBlob
  split <;> rfl

theorem generate_thumbnail_idem (pil : PyBytes → Except Unit PyBytes)
    (fs : StoreFS) (data : PyBytes) (h : PyStr) :
    StorageManager.generate_thumbnail pil
      (StorageManager.generate_thumbnail pil fs data h) data h =
      StorageManager.generate_thumbnail pil fs data h := by
  unfold StorageManager.generate_thumbnail
  by_cases hex : (alookup fs.thumbnails (thumbPathOf h)).isSome
  · simp [hex]
  · simp only [hex, if_false]
    cases hp : pil data with
    | ok thumb => simp [alookup_aset_self]
    | error e => simp [hex, hp]

/-- A PIL pipeline that fails on every input (e.g. every payload is
undecodable). -/
def pilNone : PyBytes → Except Unit PyBytes := fun _ => Except.error ()

/-- Claim C1: for every byte sequence `b` (including empty bytes) and every
mime type `t`, `store(b, t)` returns `"sha256:"` followed by the lowercase hex
SHA-256 digest of `b`, the blob is written at
`blobs/<hex[0:2]>/<hex[2:4]>/<hex>`, and `get_blob_path` of the returned
reference equals that path.  The hypothesis states that the store is
content-consistent at that path (absent, or already holding `b`), which holds
for any state reachable by `store` alone and rules out a SHA-256 collision
with previously stored foreign bytes. -/
theorem store_hash_and_sharded_path (pil : PyBytes → Except Unit PyBytes)
    (fs : StoreFS) (b : PyBytes) (t : PyStr)
    (hconsist : alookup fs.blobs (blobPathOf (sha256Hex b)) = none ∨
      alookup fs.blobs (blobPathOf (sha256Hex b)) = some b) :
    (StorageManager.store pil fs b t).ref = shaTag ++ sha256Hex b ∧
    alookup (StorageManager.store pil fs b t).fs.blobs
      [pyStr "blobs", List.take 2 (sha256Hex b),
       List.take 2 (List.drop 2 (sha256Hex b)), sha256Hex b] = some b ∧
    StorageManager.get_blob_path (StorageManager.store pil fs b t).ref =
      [pyStr "blobs", List.take 2 (sha256Hex b),
       List.take 2 (List.drop 2 (sha256Hex b)), sha256Hex b] := by
  refine ⟨rfl, ?_, ?_⟩
  · show alookup (StorageManager.store pil fs b t).fs.blobs
      (blobPathOf (sha256Hex b)) = some b
    rw [store_fs_blobs]
    unfold storeBlob
    rcases hconsist with hnone | hsome
    · rw [hnone]
      simp [alookup_aset_self]
    · rw [hsome]
      simpa using hsome
  · show StorageManager.get_blob_path (shaTag ++ sha256Hex b) =
      blobPathOf (sha256Hex b)
    unfold StorageManager.get_blob_path
    rw [stripSha_tagged]

theorem store_hash_and_sharded_path_witness :
    (StorageManager.store pilNone emptyFS [] (pyStr "text/plain")).ref =
      shaTag ++ sha256Hex [] ∧
    alookup (StorageManager.store pilNone emptyFS [] (pyStr "text/plain")).fs.blobs
      [pyStr "blobs", List.take 2 (sha256Hex []),
       List.take 2 (List.drop 2 (sha256Hex [])), sha256Hex []] = some [] ∧
    StorageManager.get_blob_path
        (StorageManager.store pilNone emptyFS [] (pyStr "text/plain")).ref =
      [pyStr "blobs", List.take 2 (sha256Hex []),
       List.take 2 (List.drop 2 (sha256Hex [])), sha256Hex []] :=
  store_hash_and_sharded_path pilNone emptyFS [] (pyStr "text/plain")
    (Or.inl rfl)

theorem hexDigitChar_ne_colon : ∀ d < 16, hexDigitChar d ≠ ':' := by decide

theorem sha256Hex_no_colon (msg : PyBytes) : ':' ∉ sha256Hex msg := by
  intro hmem
  unfold sha256Hex at hmem
  rcases List.mem_flatMap.mp hmem with ⟨bv, _, hc⟩
  simp only [byteHex, List.mem_cons, List.not_mem_nil, or_false] at hc
  rcases hc with hc | hc
  · exact hexDigitChar_ne_colon _ (Nat.mod_lt _ (by norm_num)) hc.symm
  · exact hexDigitChar_ne_colon _ (Nat.mod_lt _ (by norm_num)) hc.symm

theorem stripSha_hex (msg : PyBytes) :
    stripSha (sha256Hex msg) = sha256Hex msg := by
  unfold stripSha
  have hnp : List.isPrefixOf shaTag (sha256Hex msg) = false := by
    by_contra hcon
    have hpre : shaTag <+: sha256Hex msg :=
      List.isPrefixOf_iff_prefix.mp (by simpa using hcon)
    rcases hpre with ⟨tl, htl⟩
    have : ':' ∈ sha256Hex msg := by
      rw [← htl]
      exact List.mem_append_left tl (by decide)
    exact sha256Hex_no_colon msg this
  simp [hnp]

/-- Claim C2: `retrieve(store(b, t)) = b`; `retrieve` accepts the content
reference with and without the `sha256:` prefix, and returns `None` when no
blob at the resolved sharded path has been stored.  The consistency
hypothesis is as in `store_hash_and_sharded_path`. -/
theorem retrieve_store_roundtrip (pil : PyBytes → Except Unit PyBytes)
    (fs : StoreFS) (b : PyBytes) (t : PyStr)
    (hconsist : alookup fs.blobs (blobPathOf (sha256Hex b)) = none ∨
      alookup fs.blobs (blobPathOf (sha256Hex b)) = some b) :
    StorageManager.retrieve (StorageManager.store pil fs b t).fs
      (StorageManager.store pil fs b t).ref = some b ∧
    StorageManager.retrieve (StorageManager.store pil fs b t).fs
      (sha256Hex b) = some b ∧
    (∀ r : PyStr, alookup fs.blobs (blobPathOf (stripSha r)) = none →
      StorageManager.retrieve fs r = none) := by
  have hlook : alookup (StorageManager.store pil fs b t).fs.blobs
      (blobPathOf (sha256Hex b)) = some b := by
    rw [store_fs_blobs]
    unfold storeBlob
    rcases hconsist with hnone | hsome
    · rw [hnone]
      simp [alookup_aset_self]
    · rw [hsome]
      simpa using hsome
  refine ⟨?_, ?_, ?_⟩
  · show alookup (StorageManager.store pil fs b t).fs.blobs
      (blobPathOf (stripSha (shaTag ++ sha256Hex b))) = some b
    rw [stripSha_tagged]
    exact hlook
  · show alookup (StorageManager.store pil fs b t).fs.blobs
      (blobPathOf (stripSha (sha256Hex b))) = some b
    rw [stripSha_hex]
    exact hlook
  · intro r hr
    exact hr

theorem retrieve_store_roundtrip_witness :
    StorageManager.retrieve
        (StorageManager.store pilNone emptyFS [] (pyStr "text/plain")).fs
        (StorageManager.store pilNone emptyFS [] (pyStr "text/plain")).ref =
      some [] ∧
    StorageManager.retrieve
        (StorageManager.store pilNone emptyFS [] (pyStr "text/plain")).fs
        (sha256Hex []) = some [] ∧
    (∀ r : PyStr, alookup emptyFS.blobs (blobPathOf (stripSha r)) = none →
      StorageManager.retrieve emptyFS r = none) :=
  retrieve_store_roundtrip pilNone emptyFS [] (pyStr "text/plain") (Or.inl rfl)

/-- Claim C7: `store` is idempotent — the same content reference is returned
by both calls, the blob write happens on the first call and not on the second
(`storeWrites` is the `blob_path.exists()` guard of the primary write), and
the second call leaves the entire storage state unchanged (a successful
no-op). -/
theorem store_idempotent (pil : PyBytes → Except Unit PyBytes) (fs : StoreFS)
    (b : PyBytes) (t : PyStr)
    (hfresh : alookup fs.blobs (blobPathOf (sha256Hex b)) = none) :
    (StorageManager.store pil (StorageManager.store pil fs b t).fs b t).ref =
      (StorageManager.store pil fs b t).ref ∧
    storeWrites fs b = true ∧
    storeWrites (StorageManager.store pil fs b t).fs b = false ∧
    (StorageManager.store pil (StorageManager.store pil fs b t).fs b t).fs =
      (StorageManager.store pil fs b t).fs := by
  have hlook : alookup (StorageManager.store pil fs b t).fs.blobs
      (blobPathOf (sha256Hex b)) = some b := by
    rw [store_fs_blobs]
    unfold storeBlob
    rw [hfresh]
    simp [alookup_aset_self]
  have hsb : storeBlob (StorageManager.store pil fs b t).fs b (sha256Hex b) =
      (StorageManager.store pil fs b t).fs := by
    unfold storeBlob
    rw [hlook]
    simp
  refine ⟨rfl, ?_, ?_, ?_⟩
  · unfold storeWrites
    rw [hfresh]
    rfl
  · unfold storeWrites
    rw [hlook]
    rfl
  · show (if List.isPrefixOf imageTag t then
        StorageManager.generate_thumbnail pil
          (storeBlob (StorageManager.store pil fs b t).fs b (sha256Hex b)) b
          (sha256Hex b)
      else storeBlob (StorageManager.store pil fs b t).fs b (sha256Hex b)) =
      (StorageManager.store pil fs b t).fs
    rw [hsb]
    by_cases him : List.isPrefixOf imageTag t
    · simp only [him, if_true]
      show StorageManager.generate_thumbnail pil
          (StorageManager.store pil fs b t).fs b (sha256Hex b) =
          (StorageManager.store pil fs b t).fs
      have : (StorageManager.store pil fs b t).fs =
          StorageManager.generate_thumbnail pil
            (storeBlob fs b (sha256Hex b)) b (sha256Hex b) := by
        unfold StorageManager.store
        simp [him]
      rw [this, generate_thumbnail_idem]
    · simp [him]

theorem store_idempotent_witness :
    (StorageManager.store pilNone
        (StorageManager.store pilNone emptyFS [] (pyStr "text/plain")).fs []
        (pyStr "text/plain")).ref =
      (StorageManager.store pilNone emptyFS [] (pyStr "text/plain")).ref ∧
    storeWrites emptyFS [] = true ∧
    storeWrites (StorageManager.store pilNone emptyFS [] (pyStr "text/plain")).fs
      [] = false ∧
    (StorageManager.store pilNone
        (StorageManager.store pilNone emptyFS [] (pyStr "text/plain")).fs []
        (pyStr "text/plain")).fs =
      (StorageManager.store pilNone emptyFS [] (pyStr "text/plain")).fs :=
  store_idempotent pilNone emptyFS [] (pyStr "text/plain") rfl

/-- Claim C8: thumbnail failure never fails `store` — when the payload is not
decodable (the PIL pipeline fails on it) and the mime type is `image/*`, the
call still returns the valid content reference and the thumbnail store is
untouched; the exception raised inside `_generate_thumbnail` is swallowed by
its `except Exception: pass` and never reaches the `store` caller (in the
model, `store` is a total function into `StoreResult`, never an error). -/
theorem store_thumbnail_failure_nonfatal (pil : PyBytes → Except Unit PyBytes)
    (fs : StoreFS) (b : PyBytes) (t : PyStr)
    (hfail : pil b = Except.error ())
    (himg : List.isPrefixOf imageTag t = true) :
    (StorageManager.store pil fs b t).ref = shaTag ++ sha256Hex b ∧
    (StorageManager.store pil fs b t).fs.thumbnails = fs.thumbnails := by
  refine ⟨rfl, ?_⟩
  show (if List.isPrefixOf imageTag t then
      StorageManager.generate_thumbnail pil (storeBlob fs b (sha256Hex b)) b
        (sha256Hex b)
    else storeBlob fs b (sha256Hex b)).thumbnails = fs.thumbnails
  rw [himg, if_pos rfl]
  unfold StorageManager.generate_thumbnail
  by_cases hex : (alookup fs.thumbnails (thumbPathOf (sha256Hex b))).isSome
  · simp [storeBlob_thumbnails, hex]
  · simp [storeBlob_thumbnails, hex, hfail]

theorem store_thumbnail_failure_nonfatal_witness :
    (StorageManager.store pilNone emptyFS [] (pyStr "image/png")).ref =
      shaTag ++ sha256Hex [] ∧
    (StorageManager.store pilNone emptyFS [] (pyStr "image/png")).fs.thumbnails =
      emptyFS.thumbnails :=
  store_thumbnail_failure_nonfatal pilNone emptyFS [] (pyStr "image/png") rfl
    (by decide)

/-! ## JSON-shaped payloads and Python dict semantics

`inputs` / `outputs` / `execution` / `metrics` / `metadata` are Python dicts
holding JSON-serializable values (`json.dumps` on write, `json.loads` on
read, an exact round-trip, so the model stores the structured values
directly).  `numDec` represents a decimal float literal such as `10.0`
(`numDec 10 [0]`); no embedded operation inspects numeric values. -/

inductive Json where
  | null : Json
  | bool (b : Bool) : Json
  | num (n : Int) : Json
  | numDec (intPart : Int) (fracDigits : List Nat) : Json
  | str (s : PyStr) : Json
  | arr (xs : List Json) : Json
  | obj (fields : List (PyStr × Json)) : Json

/-- A Python dict with string keys, in insertion order. -/
abbrev Dict : Type := List (PyStr × Json)

/-- Python `{**d1, **d2}`: keys of `d1` in order with values overridden by
`d2` where present, then the keys of `d2` not in `d1`, in `d2`'s order. -/
def dictUnion (d1 d2 : Dict) : Dict :=
  d1.map (fun kv =>
    match alookup d2 kv.1 with
    | some v2 => (kv.1, v2)
    | none => kv) ++
  d2.filter (fun kv => (alookup d1 kv.1).isNone)

/-- The value assigned for one override key in `create_variation`'s merge
loop: object-valued overrides whose key currently maps to an object are
merged one level deep (`{**new_inputs[key], **value}`); everything else
replaces the current value outright. -/
def mergeVal (old : Option Json) (v : Json) : Json :=
  match v with
  | Json.obj o2 =>
      match old with
      | some (Json.obj o1) => Json.obj (dictUnion o1 o2)
      | _ => Json.obj o2
  | v' => v'

/-- One iteration of `create_variation`'s `for key, value in
input_overrides.items()` loop (both branches end in
`new_inputs[key] = ...`). -/
def mergeStep (acc : Dict) (kv : PyStr × Json) : Dict :=
  aset acc kv.1 (mergeVal (alookup acc kv.1) kv.2)

/-- The input merge of `Entry.create_variation` (entry.py lines 400-410):
fold the override items over a copy of the original inputs. -/
def mergeInputs (inputs input_overrides : Dict) : Dict :=
  input_overrides.foldl mergeStep inputs

theorem alookup_eq_none_iff {α β : Type} [DecidableEq α] (l : List (α × β))
    (k : α) : alookup l k = none ↔ k ∉ l.map Prod.fst := by
  induction l with
  | nil => simp [alookup]
  | cons hd tl ih =>
    by_cases h : hd.1 = k
    · simp [alookup, h]
    · simp [alookup, h, ih, Ne.symm h]

theorem alookup_mem {α β : Type} [DecidableEq α] {l : List (α × β)} {k : α}
    {v : β} (h : alookup l k = some v) : (k, v) ∈ l := by
  induction l with
  | nil => simp [alookup] at h
  | cons hd tl ih =>
    by_cases hk : hd.1 = k
    · rw [alookup, if_pos hk] at h
      cases h
      subst hk
      simp
    · rw [alookup, if_neg hk] at h
      exact List.mem_cons_of_mem hd (ih h)

theorem mergeFold_not_mem (ov : Dict) (acc : Dict) (k : PyStr)
    (h : k ∉ ov.map Prod.fst) :
    alookup (ov.foldl mergeStep acc) k = alookup acc k := by
  induction ov generalizing acc with
  | nil => rfl
  | cons hd tl ih =>
    simp only [List.map_cons, List.mem_cons, not_or] at h
    rw [List.foldl_cons, ih _ h.2]
    exact alookup_aset_ne acc k hd.1 _ (Ne.symm h.1)

theorem mergeFold_mem (ov : Dict) (acc : Dict) (k : PyStr) (v : Json)
    (hnd : (ov.map Prod.fst).Nodup) (h : (k, v) ∈ ov) :
    alookup (ov.foldl mergeStep acc) k =
      some (mergeVal (alookup acc k) v) := by
  induction ov generalizing acc with
  | nil => cases h
  | cons hd tl ih =>
    simp only [List.map_cons, List.nodup_cons] at hnd
    rcases List.mem_cons.mp h with heq | htl
    · have hk : hd.1 = k := by rw [← heq]
      have hknot : k ∉ tl.map Prod.fst := by
        rw [← hk]
        exact hnd.1
      rw [List.foldl_cons, mergeFold_not_mem tl _ k hknot]
      have hv : hd.2 = v := by rw [← heq]
      rw [mergeStep, hk, hv]
      exact alookup_aset_self acc k _
    · have hk : hd.1 ≠ k := by
        intro hcon
        exact hnd.1 (hcon ▸ (List.mem_map.mpr ⟨(k, v), htl, rfl⟩))
      rw [List.foldl_cons]
      rw [ih _ hnd.2 htl]
      rw [mergeStep, alookup_aset_ne acc k hd.1 _ hk]

/-- Claim C5: `create_variation` merges overrides into a copy of the
original inputs one level deep — an override key whose value is an object
and whose key maps to an object is merged key-by-key with override entries
winning, any other override key replaces the original value outright, keys
absent from the overrides keep their original values — and the two concrete
examples from the specification hold. -/
theorem create_variation_input_merge (inputs input_overrides : Dict)
    (hnd : (input_overrides.map Prod.fst).Nodup) :
    (∀ k, alookup input_overrides k = none →
      alookup (mergeInputs inputs input_overrides) k = alookup inputs k) ∧
    (∀ k v, alookup input_overrides k = some v → (∀ o2, v ≠ Json.obj o2) →
      alookup (mergeInputs inputs input_overrides) k = some v) ∧
    (∀ k o2, alookup input_overrides k = some (Json.obj o2) →
      (∀ o1, alookup inputs k ≠ some (Json.obj o1)) →
      alookup (mergeInputs inputs input_overrides) k = some (Json.obj o2)) ∧
    (∀ k o1 o2, alookup input_overrides k = some (Json.obj o2) →
      alookup inputs k = some (Json.obj o1) →
      alookup (mergeInputs inputs input_overrides) k =
        some (Json.obj (dictUnion o1 o2))) ∧
    mergeInputs
        [(pyStr "prompt", Json.str (pyStr "x")), (pyStr "seed", Json.num 42)]
        [(pyStr "cfg", Json.numDec 10 [0])] =
      [(pyStr "prompt", Json.str (pyStr "x")), (pyStr "seed", Json.num 42),
       (pyStr "cfg", Json.numDec 10 [0])] ∧
    mergeInputs
        [(pyStr "headers", Json.obj [(pyStr "X-Old", Json.str (pyStr "v2"))])]
        [(pyStr "headers", Json.obj [(pyStr "X-New", Json.str (pyStr "v"))])] =
      [(pyStr "headers",
        Json.obj [(pyStr "X-Old", Json.str (pyStr "v2")),
                  (pyStr "X-New", Json.str (pyStr "v"))])] := by
  refine ⟨?_, ?_, ?_, ?_, ?_, ?_⟩
  · intro k hk
    exact mergeFold_not_mem input_overrides inputs k
      ((alookup_eq_none_iff _ _).mp hk)
  · intro k v hk hno
    rw [mergeInputs, mergeFold_mem _ _ _ _ hnd (alookup_mem hk)]
    cases v with
    | obj o2 => exact absurd rfl (hno o2)
    | null => rfl
    | bool b => rfl
    | num n => rfl
    | numDec i f => rfl
    | str s => rfl
    | arr xs => rfl
  · intro k o2 hk hno
    rw [mergeInputs, mergeFold_mem _ _ _ _ hnd (alookup_mem hk)]
    rcases hin : alookup inputs k with _ | j
    · rfl
    · cases j with
      | obj o1 => exact absurd hin (hno o1)
      | null => rfl
      | bool b => rfl
      | num n => rfl
      | numDec i f => rfl
      | str s => rfl
      | arr xs => rfl
  · intro k o1 o2 hk hin
    rw [mergeInputs, mergeFold_mem _ _ _ _ hnd (alookup_mem hk), hin]
    rfl
  · rfl
  · rfl

theorem create_variation_input_merge_witness :
    mergeInputs
        [(pyStr "prompt", Json.str (pyStr "x")), (pyStr "seed", Json.num 42)]
        [(pyStr "cfg", Json.numDec 10 [0])] =
      [(pyStr "prompt", Json.str (pyStr "x")), (pyStr "seed", Json.num 42),
       (pyStr "cfg", Json.numDec 10 [0])] :=
  (create_variation_input_merge [] [] (by decide)).2.2.2.2.1

/-! ## Relational state, entries, lineage (`codex/core/entry.py`, `codex/db/models.py`)

Tables are lists of rows in insertion order.  `DateTime` columns
(`created_at`, …) carry no load-bearing semantics for the claims and are
omitted; timestamps written into the `execution` dict are passed in as
explicit clock strings.  The Git mirror (`git_manager.commit_entry` /
`update_entry`) is modelled as a map from entry id to its `to_dict`
manifest, with `GIT_AVAILABLE` taken as true.  A SQLAlchemy session that
raises before `commit()` rolls its writes back, so each fallible operation
is an `Except` returning either the fully committed state or an error with
the database unchanged. -/

structure PageRow where
  id : PyStr
  notebook_id : PyStr
  title : PyStr

structure EntryRow where
  id : PyStr
  page_id : PyStr
  entry_type : PyStr
  title : PyStr
  status : PyStr
  parent_id : Option PyStr
  inputs : Dict
  outputs : Dict
  execution : Dict
  metrics : Dict
  metadata : Dict

structure LineageRow where
  parent_id : PyStr
  child_id : PyStr
  relationship_type : PyStr
  deriving DecidableEq

structure ArtifactRow where
  id : PyStr
  entry_id : PyStr
  type : PyStr
  hash : PyStr
  size_bytes : Nat
  path : StorePath
  thumbnail_path : StorePath
  metadata : Dict

structure DB where
  pages : List PageRow
  entries : List EntryRow
  lineage : List LineageRow
  artifacts : List ArtifactRow

/-- The manifest produced by `Entry.to_dict` (committed to the Git mirror). -/
structure EntrySnapshot where
  id : PyStr
  page_id : PyStr
  entry_type : PyStr
  title : PyStr
  status : PyStr
  parent_id : Option PyStr
  inputs : Dict
  outputs : Dict
  execution : Dict
  metrics : Dict
  metadata : Dict
  tags : List PyStr

structure World where
  db : DB
  fs : StoreFS
  git : List (PyStr × EntrySnapshot)

/-- The in-memory `Entry` dataclass (minus the workspace back-reference,
which the model passes as explicit `World` state). -/
structure Entry where
  id : PyStr
  page_id : PyStr
  entry_type : PyStr
  title : PyStr
  status : PyStr
  parent_id : Option PyStr
  inputs : Dict
  outputs : Dict
  execution : Dict
  metrics : Dict
  metadata : Dict
  tags : List PyStr

def Entry.toDict (e : Entry) : EntrySnapshot :=
  ⟨e.id, e.page_id, e.entry_type, e.title, e.status, e.parent_id, e.inputs,
   e.outputs, e.execution, e.metrics, e.metadata, e.tags⟩

def findPage (db : DB) (page_id : PyStr) : Option PageRow :=
  db.pages.find? (fun r => r.id == page_id)

def findEntryRow (db : DB) (entry_id : PyStr) : Option EntryRow :=
  db.entries.find? (fun r => r.id == entry_id)

def pageExists (db : DB) (page_id : PyStr) : Bool :=
  db.pages.any (fun r => r.id == page_id)

def entryExists (db : DB) (entry_id : PyStr) : Bool :=
  db.entries.any (fun r => r.id == entry_id)

/-- `EntryLineage` row creation through `Base.create(validate_fk=True)`
followed by flush/commit: application-level FK validation first
(`validate_foreign_keys`), then the composite primary key
`(parent_id, child_id)` — declared in `codex/db/models.py` with no
`relationship_type` component — is enforced by SQLite at flush. -/
def EntryLineageModel.create (db : DB)
    (parent_id child_id relationship_type : PyStr) : Except PyStr DB :=
  if entryExists db parent_id then
    if entryExists db child_id then
      if db.lineage.any (fun r =>
          r.parent_id == parent_id && r.child_id == child_id) then
        Except.error (pyStr "UNIQUE constraint failed: entry_lineage")
      else
        Except.ok { db with
          lineage := db.lineage ++ [⟨parent_id, child_id, relationship_type⟩] }
    else Except.error (pyStr "Foreign key constraint failed: child_id")
  else Except.error (pyStr "Foreign key constraint failed: parent_id")

/-- `tags or []` followed by the normalized metadata block written at entry
creation. -/
def createMetadata (tagList : List PyStr) : Dict :=
  [(pyStr "tags", Json.arr (tagList.map Json.str)),
   (pyStr "notes", Json.str []),
   (pyStr "rating", Json.null),
   (pyStr "archived", Json.bool false)]

/-- The `Entry` dataclass built at the top of `Entry.create`. -/
def Entry.newEntry (entry_id : PyStr) (page : PageRow)
    (entry_type title : PyStr) (inputs : Dict) (parent_id : Option PyStr)
    (tagList : List PyStr) : Entry :=
  ⟨entry_id, page.id, entry_type, title, pyStr "created", parent_id, inputs,
   [], [], [], createMetadata tagList, tagList⟩

/-- The `entries` row written by `EntryModel.create`. -/
def Entry.newRow (entry_id : PyStr) (page : PageRow)
    (entry_type title : PyStr) (inputs : Dict) (parent_id : Option PyStr)
    (tagList : List PyStr) : EntryRow :=
  ⟨entry_id, page.id, entry_type, title, pyStr "created", parent_id, inputs,
   [], [], [], createMetadata tagList⟩

/-- `Entry.create`: build the dataclass, insert the row (FK-validated
`page_id`/`parent_id`, primary-key `id`), add a `derives_from` lineage edge
when `parent_id` is given, commit, then mirror the manifest to Git
(`commit_entry`).  The fresh ULID is passed in as `entry_id`. -/
def Entry.create (w : World) (entry_id : PyStr) (page : PageRow)
    (entry_type title : PyStr) (inputs : Dict) (parent_id : Option PyStr)
    (tags : Option (List PyStr)) : Except PyStr (World × Entry) :=
  let tagList := match tags with
    | some ts => ts
    | none => []
  let e : Entry :=
    Entry.newEntry entry_id page entry_type title inputs parent_id tagList
  let row : EntryRow :=
    Entry.newRow entry_id page entry_type title inputs parent_id tagList
  if pageExists w.db page.id then
    if (match parent_id with
        | some p => entryExists w.db p
        | none => true) then
      if entryExists w.db entry_id then
        Except.error (pyStr "UNIQUE constraint failed: entries.id")
      else
        let db1 := { w.db with entries := w.db.entries ++ [row] }
        match parent_id with
        | some p =>
            match EntryLineageModel.create db1 p entry_id
                (pyStr "derives_from") with
            | Except.ok db2 =>
                Except.ok
                  ({ w with
                     db := db2
                     git := aset w.git entry_id (Entry.toDict e) }, e)
            | Except.error m => Except.error m
        | none =>
            Except.ok
              ({ w with
                 db := db1
                 git := aset w.git entry_id (Entry.toDict e) }, e)
    else Except.error (pyStr "Foreign key constraint failed: parent_id")
  else Except.error (pyStr "Foreign key constraint failed: page_id")

/-- The per-row effect of `Entry._update`'s partial-field UPDATE: only
`title`, `status`, `outputs`, `execution`, `metrics` and `metadata` are
written back — in particular neither `inputs` nor `parent_id`. -/
def updateRowWith (e : Entry) (r : EntryRow) : EntryRow :=
  if r.id == e.id then
    { r with
      title := e.title
      status := e.status
      outputs := e.outputs
      execution := e.execution
      metrics := e.metrics
      metadata := e.metadata }
  else r

/-- `Entry._update`: partial-field UPDATE of the entry's row (no-op when the
row is absent), then `git_manager.update_entry` with the full `to_dict`
manifest — written only when the page resolves and the manifest file already
exists. -/
def Entry._update (w : World) (e : Entry) : World :=
  { w with
    db := { w.db with entries := w.db.entries.map (updateRowWith e) }
    git :=
      match findPage w.db e.page_id with
      | some _ =>
          if (alookup w.git e.id).isSome then aset w.git e.id (Entry.toDict e)
          else w.git
      | none => w.git }

/-- `Entry.create_variation`: merge overrides into the inputs, create the
variation with `parent_id=None` (deliberately, to avoid a duplicate lineage
entry), set `parent_id` on the dataclass and call `_update`, then add the
explicit `variation_of` edge. -/
def Entry.create_variation (w : World) (self : Entry) (variation_id : PyStr)
    (title : PyStr) (input_overrides : Dict) (tags : Option (List PyStr)) :
    Except PyStr (World × Entry) :=
  let new_inputs := mergeInputs self.inputs input_overrides
  match findPage w.db self.page_id with
  | none => Except.error (pyStr "AttributeError: NoneType")
  | some page =>
    match Entry.create w variation_id page self.entry_type title new_inputs
        none
        (some (match tags with
               | some ts => if ts.isEmpty then self.tags else ts
               | none => self.tags)) with
    | Except.error m => Except.error m
    | Except.ok (w1, variation0) =>
        let variation := { variation0 with parent_id := some self.id }
        let w2 := Entry._update w1 variation
        match EntryLineageModel.create w2.db self.id variation.id
            (pyStr "variation_of") with
        | Except.error m => Except.error m
        | Except.ok db3 => Except.ok ({ w2 with db := db3 }, variation)

/-- `str.encode()` of ASCII content. -/
def strToBytes (s : PyStr) : PyBytes := s.map Char.toNat

/-- The artifact id derived in `Entry.add_artifact`:
`"art-" + sha256(content_ref).hexdigest()[:12]`, a pure function of the
content-reference string (hence of the artifact bytes). -/
def artifactIdFor (content_ref : PyStr) : PyStr :=
  pyStr "art-" ++ List.take 12 (sha256Hex (strToBytes content_ref))

/-- `Entry.add_artifact`: store the bytes content-addressed, derive the
artifact id from the content reference, then `insert_artifact` (a bare
INSERT committed in its own session: the `artifacts` primary-key `id` and
unique `hash` column are enforced by SQLite).  The storage write survives
even when the INSERT fails. -/
def Entry.add_artifact (pil : PyBytes → Except Unit PyBytes) (w : World)
    (self : Entry) (artifact_type : PyStr) (data : PyBytes)
    (metadata : Dict) : World × Except PyStr ArtifactRow :=
  let sr := StorageManager.store pil w.fs data artifact_type
  let artifact_hash := sr.ref
  let artifact_id := artifactIdFor artifact_hash
  let row : ArtifactRow :=
    ⟨artifact_id, self.id, artifact_type, artifact_hash, data.length,
     StorageManager.get_blob_path artifact_hash,
     StorageManager.get_thumbnail_path artifact_hash, metadata⟩
  let w1 := { w with fs := sr.fs }
  if w1.db.artifacts.any (fun a => a.id == artifact_id) then
    (w1, Except.error (pyStr "UNIQUE constraint failed: artifacts.id"))
  else if w1.db.artifacts.any (fun a => a.hash == artifact_hash) then
    (w1, Except.error (pyStr "UNIQUE constraint failed: artifacts.hash"))
  else
    ({ w1 with db := { w1.db with artifacts := w1.db.artifacts ++ [row] } },
     Except.ok row)

/-! ## Integration dispatch and `Entry.execute` -/

structure ArtifactSpec where
  type : PyStr
  data : PyBytes
  metadata : Dict

/-- The `{outputs, artifacts}` dict returned by an integration's `execute`;
`artifacts = none` models the key being absent. -/
structure IntegResult where
  outputs : Dict
  artifacts : Option (List ArtifactSpec)

/-- An integration's `async execute`, which may raise (modelled by the
stringification `str(e)` of the exception). -/
abbrev Integration := Dict → Except PyStr IntegResult

/-- `IntegrationRegistry.get`: raises
`ValueError(f"No integration registered for: {entry_type}")` when the type
is not registered. -/
def IntegrationRegistry.get (reg : List (PyStr × Integration))
    (entry_type : PyStr) : Except PyStr Integration :=
  match alookup reg entry_type with
  | none => Except.error (pyStr "No integration registered for: " ++ entry_type)
  | some i => Except.ok i

/-- The `for artifact_data in result["artifacts"]` loop of `Entry.execute`;
the first raising `add_artifact` aborts the loop with its exception, keeping
the world as mutated so far (each INSERT commits in its own session). -/
def storeArtifacts (pil : PyBytes → Except Unit PyBytes) :
    World → Entry → List ArtifactSpec → World × Except PyStr Unit
  | w, _, [] => (w, Except.ok ())
  | w, e, a :: rest =>
    match Entry.add_artifact pil w e a.type a.data a.metadata with
    | (w1, Except.ok _) => storeArtifacts pil w1 e rest
    | (w1, Except.error m) => (w1, Except.error m)

/-- The `except Exception as e:` branch of `Entry.execute`: record
`completed_at`, `execution.status = "error"`, `execution.error = str(e)`,
and mark the entry `failed`. -/
def Entry.failState (e : Entry) (nowEnd msg : PyStr) : Entry :=
  { e with
    execution :=
      aset (aset (aset e.execution (pyStr "completed_at") (Json.str nowEnd))
             (pyStr "status") (Json.str (pyStr "error")))
        (pyStr "error") (Json.str msg)
    status := pyStr "failed" }

/-- The first two statements of `Entry.execute`: transition to `running` and
record `execution["started_at"]`. -/
def Entry.runState (self : Entry) (nowStart : PyStr) : Entry :=
  { self with
    status := pyStr "running"
    execution := aset self.execution (pyStr "started_at") (Json.str nowStart) }

/-- `Entry.execute`: mark running and persist; resolve the integration
(explicit `integration_class` argument, or the registry); run it; on success
copy outputs, mark success/completed and ingest artifacts; on any exception
record the failure state and re-raise; persist unconditionally
(`finally: self._update()`). -/
def Entry.execute (reg : List (PyStr × Integration))
    (pil : PyBytes → Except Unit PyBytes)
    (integration_class : Option Integration) (nowStart nowEnd : PyStr)
    (w : World) (self : Entry) : World × Entry × Except PyStr Unit :=
  let e1 := Entry.runState self nowStart
  let w1 := Entry._update w e1
  match (match integration_class with
         | some ic => Except.ok ic
         | none => IntegrationRegistry.get reg e1.entry_type) with
  | Except.error msg =>
      let e2 := Entry.failState e1 nowEnd msg
      (Entry._update w1 e2, e2, Except.error msg)
  | Except.ok integ =>
    match integ e1.inputs with
    | Except.error msg =>
        let e2 := Entry.failState e1 nowEnd msg
        (Entry._update w1 e2, e2, Except.error msg)
    | Except.ok result =>
        let e2 := { e1 with
          outputs := result.outputs
          execution :=
            aset (aset e1.execution (pyStr "completed_at") (Json.str nowEnd))
              (pyStr "status") (Json.str (pyStr "success"))
          status := pyStr "completed" }
        match result.artifacts with
        | none => (Entry._update w1 e2, e2, Except.ok ())
        | some arts =>
          match storeArtifacts pil w1 e2 arts with
          | (w2, Except.ok _) => (Entry._update w2 e2, e2, Except.ok ())
          | (w2, Except.error msg) =>
              let e3 := Entry.failState e2 nowEnd msg
              (Entry._update w2 e3, e3, Except.error msg)

/-! ## Lineage traversal (`Entry.get_lineage`) -/

/-- One BFS level's edge lookup: all lineage rows whose `child_id` lies in
the current frontier, frontier order first, table order within (one
`find_by(child_id=cid)` query per frontier element).  No
`relationship_type` filter is applied. -/
def edgesInto (db : DB) (ids : List PyStr) : List LineageRow :=
  ids.flatMap (fun cid => db.lineage.filter (fun r => r.child_id == cid))

/-- Symmetric edge lookup for descendants. -/
def edgesFrom (db : DB) (ids : List PyStr) : List LineageRow :=
  ids.flatMap (fun pid => db.lineage.filter (fun r => r.parent_id == pid))

/-- Resolve a list of ids to their entry rows, skipping missing ones
(`if e:`). -/
def levelRows (db : DB) (ids : List PyStr) : List EntryRow :=
  ids.filterMap (fun i => findEntryRow db i)

/-- The ancestor half of `Entry.get_lineage`: up to `depth` level-synchronous
BFS steps; stop early on an empty frontier or when a level yields no
parents. -/
def ancestorsLoop (db : DB) : Nat → List PyStr → List EntryRow → List EntryRow
  | 0, _, acc => acc
  | d + 1, ids, acc =>
      if ids.isEmpty then acc
      else
        let parent_ids := (edgesInto db ids).map LineageRow.parent_id
        if parent_ids.isEmpty then acc
        else ancestorsLoop db d parent_ids (acc ++ levelRows db parent_ids)

def ancestorsOf (db : DB) (entry_id : PyStr) (depth : Nat) : List EntryRow :=
  ancestorsLoop db depth [entry_id] []

/-- The descendant half of `Entry.get_lineage`. -/
def descendantsLoop (db : DB) :
    Nat → List PyStr → List EntryRow → List EntryRow
  | 0, _, acc => acc
  | d + 1, ids, acc =>
      if ids.isEmpty then acc
      else
        let child_ids := (edgesFrom db ids).map LineageRow.child_id
        if child_ids.isEmpty then acc
        else descendantsLoop db d child_ids (acc ++ levelRows db child_ids)

def descendantsOf (db : DB) (entry_id : PyStr) (depth : Nat) : List EntryRow :=
  descendantsLoop db depth [entry_id] []

/-- `Entry.get_lineage` (ancestors, descendants); the source additionally
re-serializes each row into a dict field by field. -/
def Entry.get_lineage (db : DB) (self_id : PyStr) (depth : Nat) :
    List EntryRow × List EntryRow :=
  (ancestorsOf db self_id depth, descendantsOf db self_id depth)

def exceptIsOk {ε α : Type} : Except ε α → Bool
  | Except.ok _ => true
  | Except.error _ => false

def rowIdOf : Except PyStr ArtifactRow → Option PyStr
  | Except.ok r => some r.id
  | Except.error _ => none

/-! ## Claim C6: bounded BFS ancestor traversal -/

/-- Rewrite every edge's `relationship_type` (used to state that traversal
ignores the edge type). -/
def relabelEdges (f : LineageRow → PyStr) (db : DB) : DB :=
  { db with lineage := db.lineage.map (fun r => { r with relationship_type := f r }) }

theorem edgesInto_relabel (f : LineageRow → PyStr) (db : DB)
    (ids : List PyStr) :
    edgesInto (relabelEdges f db) ids =
      (edgesInto db ids).map (fun r => { r with relationship_type := f r }) := by
  unfold edgesInto relabelEdges
  induction ids with
  | nil => rfl
  | cons hd tl ih =>
    simp only [List.flatMap_cons, List.map_append, ih]
    congr 1
    rw [List.filter_map]
    rfl

theorem ancestorsLoop_relabel (f : LineageRow → PyStr) (db : DB) (d : Nat) :
    ∀ (ids : List PyStr) (acc : List EntryRow),
      ancestorsLoop (relabelEdges f db) d ids acc = ancestorsLoop db d ids acc := by
  induction d with
  | zero => intro ids acc; rfl
  | succ d ih =>
    intro ids acc
    show (if ids.isEmpty then acc else _) = (if ids.isEmpty then acc else _)
    by_cases hids : ids.isEmpty
    · simp [hids]
    · simp only [hids, if_false]
      have hpar : (edgesInto (relabelEdges f db) ids).map LineageRow.parent_id =
          (edgesInto db ids).map LineageRow.parent_id := by
        rw [edgesInto_relabel, List.map_map]
        rfl
      rw [hpar]
      have hlev : levelRows (relabelEdges f db) = levelRows db := rfl
      rw [hlev]
      by_cases hpe : ((edgesInto db ids).map LineageRow.parent_id).isEmpty
      · simp [hpe]
      · simp only [hpe, if_false]
        exact ih _ _

/-- A minimal entry row for the concrete chain fixture. -/
def chainRow (i : PyStr) : EntryRow :=
  ⟨i, pyStr "P", pyStr "custom", i, pyStr "created", none, [], [], [], [], []⟩

/-- Fixture: entries A→B→C→D→E (each the parent of the next), with mixed
edge types along the chain. -/
def chainDb : DB :=
  { pages := [⟨pyStr "P", pyStr "N", pyStr "P"⟩]
    entries := [chainRow (pyStr "A"), chainRow (pyStr "B"), chainRow (pyStr "C"),
                chainRow (pyStr "D"), chainRow (pyStr "E")]
    lineage := [⟨pyStr "A", pyStr "B", pyStr "derives_from"⟩,
                ⟨pyStr "B", pyStr "C", pyStr "variation_of"⟩,
                ⟨pyStr "C", pyStr "D", pyStr "derives_from"⟩,
                ⟨pyStr "D", pyStr "E", pyStr "variation_of"⟩]
    artifacts := [] }

/-- Claim C6: ancestor traversal is a level-synchronous BFS bounded by
`depth` hops that follows every lineage edge regardless of
`relationship_type` (relabelling every edge's type leaves the traversal
unchanged) and stops early when a level yields no parents; on the linear
chain A→B→C→D→E, the ancestors of E at depth 2 are exactly D then C. -/
theorem lineage_ancestors_bfs_depth :
    ancestorsOf chainDb (pyStr "E") 2 =
      [chainRow (pyStr "D"), chainRow (pyStr "C")] ∧
    (∀ (db : DB) (f : LineageRow → PyStr) (d : Nat) (ids : List PyStr)
        (acc : List EntryRow),
      ancestorsLoop (relabelEdges f db) d ids acc =
        ancestorsLoop db d ids acc) ∧
    (∀ (db : DB) (d : Nat) (ids : List PyStr) (acc : List EntryRow),
      ids ≠ [] → edgesInto db ids = [] →
      ancestorsLoop db (d + 1) ids acc = acc) := by
  refine ⟨by rfl, fun db f d ids acc => ancestorsLoop_relabel f db d ids acc, ?_⟩
  intro db d ids acc hne hedges
  show (if ids.isEmpty then acc else _) = acc
  have hids : ids.isEmpty = false := by
    cases ids with
    | nil => exact absurd rfl hne
    | cons hd tl => rfl
  rw [hids]
  simp [hedges]

theorem lineage_ancestors_bfs_depth_witness :
    ancestorsLoop chainDb 1 [pyStr "A"] [] = [] :=
  lineage_ancestors_bfs_depth.2.2 chainDb 0 [pyStr "A"] [] (by decide) (by decide)

/-! ## Claim C9: one lineage edge per (parent, child) pair -/

/-- The invariant enforced by the composite primary key of `entry_lineage`:
rows are uniquely determined by `(parent_id, child_id)`. -/
def pairUnique (l : List LineageRow) : Prop :=
  ∀ r1 ∈ l, ∀ r2 ∈ l,
    r1.parent_id = r2.parent_id → r1.child_id = r2.child_id → r1 = r2

/-- Claim C9: `(parent_id, child_id)` is the composite primary key of the
lineage table with no `relationship_type` component — inserting a second
edge for an existing pair fails at the persistence layer whatever its type,
a successful insert preserves pair-uniqueness, and under pair-uniqueness a
`derives_from` edge and a `variation_of` edge can never coexist between the
same (parent, child) pair. -/
theorem lineage_single_edge_per_pair :
    (∀ (db : DB) (p c t : PyStr),
      db.lineage.any (fun r => r.parent_id == p && r.child_id == c) = true →
      exceptIsOk (EntryLineageModel.create db p c t) = false) ∧
    (∀ (db : DB) (p c t : PyStr) (db' : DB), pairUnique db.lineage →
      EntryLineageModel.create db p c t = Except.ok db' →
      pairUnique db'.lineage) ∧
    (∀ l : List LineageRow, pairUnique l →
      ¬ ∃ r1, r1 ∈ l ∧ ∃ r2, r2 ∈ l ∧ r1.parent_id = r2.parent_id ∧
        r1.child_id = r2.child_id ∧
        r1.relationship_type = pyStr "derives_from" ∧
        r2.relationship_type = pyStr "variation_of") := by
  refine ⟨?_, ?_, ?_⟩
  · intro db p c t hdup
    unfold EntryLineageModel.create
    by_cases h1 : entryExists db p
    · by_cases h2 : entryExists db c
      · simp [h1, h2, hdup, exceptIsOk]
      · simp [h1, h2, exceptIsOk]
    · simp [h1, exceptIsOk]
  · intro db p c t db' hpu hok
    unfold EntryLineageModel.create at hok
    by_cases h1 : entryExists db p
    · by_cases h2 : entryExists db c
      · by_cases h3 : db.lineage.any
            (fun r => r.parent_id == p && r.child_id == c)
        · simp [h1, h2, h3] at hok
        · simp [h1, h2, h3] at hok
          have hnone : ∀ r ∈ db.lineage,
              ¬(r.parent_id = p ∧ r.child_id = c) := by
            intro r hr hcon
            have := List.any_eq_false.mp (Bool.not_eq_true _ ▸ h3) r hr
            simp [hcon.1, hcon.2] at this
          subst hok
          intro r1 hr1 r2 hr2 hp hc
          simp only [List.mem_append, List.mem_singleton] at hr1 hr2
          rcases hr1 with hr1 | hr1 <;> rcases hr2 with hr2 | hr2
          · exact hpu r1 hr1 r2 hr2 hp hc
          · exfalso
            apply hnone r1 hr1
            rw [hr2] at hp hc
            exact ⟨hp, hc⟩
          · exfalso
            apply hnone r2 hr2
            rw [hr1] at hp hc
            exact ⟨hp.symm, hc.symm⟩
          · rw [hr1, hr2]
      · simp [h1, h2] at hok
    · simp [h1] at hok
  · intro l hpu ⟨r1, hr1, r2, hr2, hp, hc, ht1, ht2⟩
    have heq := hpu r1 hr1 r2 hr2 hp hc
    rw [heq, ht2] at ht1
    exact absurd ht1 (by decide)

/-- A database holding a single `derives_from` edge A→B (no FK targets
needed: the primary-key rejection fires regardless). -/
def dbPair : DB :=
  { pages := []
    entries := [chainRow (pyStr "A"), chainRow (pyStr "B")]
    lineage := [⟨pyStr "A", pyStr "B", pyStr "derives_from"⟩]
    artifacts := [] }

theorem lineage_single_edge_per_pair_witness :
    exceptIsOk (EntryLineageModel.create dbPair (pyStr "A") (pyStr "B")
      (pyStr "variation_of")) = false :=
  lineage_single_edge_per_pair.1 dbPair (pyStr "A") (pyStr "B")
    (pyStr "variation_of") (by decide)

/-! ## Claim C10: artifact ids are a pure function of the bytes -/

theorem store_ref (pil : PyBytes → Except Unit PyBytes) (fs : StoreFS)
    (data : PyBytes) (t : PyStr) :
    (StorageManager.store pil fs data t).ref = shaTag ++ sha256Hex data := rfl

/-- Claim C10: the artifact id produced by `add_artifact` is `"art-"` plus
the first 12 hex characters of the SHA-256 of the content-reference string —
a pure function of the artifact's bytes, independent of the storing entry
and of the surrounding state — and a second `add_artifact` with
byte-identical data (any entry, any type) fails at the persistence layer
instead of creating a second artifact record. -/
theorem add_artifact_id_pure_and_unique :
    (∀ (pil : PyBytes → Except Unit PyBytes) (w : World) (self : Entry)
        (a_type : PyStr) (data : PyBytes) (md : Dict),
      exceptIsOk (Entry.add_artifact pil w self a_type data md).2 = true →
      rowIdOf (Entry.add_artifact pil w self a_type data md).2 =
        some (artifactIdFor (shaTag ++ sha256Hex data))) ∧
    (∀ (pil : PyBytes → Except Unit PyBytes) (w : World)
        (self self2 : Entry) (a_type a_type2 : PyStr) (data data2 : PyBytes)
        (md md2 : Dict),
      data2 = data →
      exceptIsOk (Entry.add_artifact pil w self a_type data md).2 = true →
      exceptIsOk (Entry.add_artifact pil
        (Entry.add_artifact pil w self a_type data md).1 self2 a_type2 data2
        md2).2 = false) := by
  constructor
  · intro pil w self a_type data md h
    simp only [Entry.add_artifact, store_ref] at h ⊢
    by_cases h1 : w.db.artifacts.any
        (fun a => a.id == artifactIdFor (shaTag ++ sha256Hex data))
    · simp [h1, exceptIsOk] at h
    · by_cases h2 : w.db.artifacts.any
          (fun a => a.hash == shaTag ++ sha256Hex data)
      · simp [h1, h2, exceptIsOk] at h
      · simp [h1, h2, rowIdOf]
  · intro pil w self self2 a_type a_type2 data data2 md md2 hdata h
    subst hdata
    simp only [Entry.add_artifact, store_ref] at h ⊢
    by_cases h1 : w.db.artifacts.any
        (fun a => a.id == artifactIdFor (shaTag ++ sha256Hex data2))
    · simp [h1, exceptIsOk] at h
    · by_cases h2 : w.db.artifacts.any
          (fun a => a.hash == shaTag ++ sha256Hex data2)
      · simp [h1, h2, exceptIsOk] at h
      · simp [h1, h2, List.any_append, exceptIsOk]

/-- Fixture: a world holding one page `P` and one entry row `A`, empty
storage, empty Git mirror. -/
def w0 : World :=
  ⟨⟨[⟨pyStr "P", pyStr "N", pyStr "P"⟩], [chainRow (pyStr "A")], [], []⟩,
   emptyFS, []⟩

/-- Fixture: the in-memory entry `A` living on page `P`. -/
def e0 : Entry :=
  ⟨pyStr "A", pyStr "P", pyStr "custom", pyStr "A", pyStr "created", none,
   [], [], [], [], [], []⟩

theorem add_artifact_id_pure_and_unique_witness :
    rowIdOf (Entry.add_artifact pilNone w0 e0 (pyStr "text/plain") [] []).2 =
      some (artifactIdFor (shaTag ++ sha256Hex [])) :=
  add_artifact_id_pure_and_unique.1 pilNone w0 e0 (pyStr "text/plain") [] []
    (by decide)

/-! ## Claim C3: failure handling in `Entry.execute` -/

theorem runState_entry_type (self : Entry) (ns : PyStr) :
    (Entry.runState self ns).entry_type = self.entry_type := rfl

theorem runState_inputs (self : Entry) (ns : PyStr) :
    (Entry.runState self ns).inputs = self.inputs := rfl

/-- On either failure source — the registry raising for an unknown
integration, or the integration's own `execute` raising — `Entry.execute`
reduces to: persist the running state, compute the failure state, persist
it, re-raise. -/
theorem execute_failure_shape (reg : List (PyStr × Integration))
    (pil : PyBytes → Except Unit PyBytes) (nowStart nowEnd : PyStr)
    (w : World) (self : Entry) (msg : PyStr)
    (hfail : IntegrationRegistry.get reg self.entry_type = Except.error msg ∨
      ∃ integ, IntegrationRegistry.get reg self.entry_type = Except.ok integ ∧
        integ self.inputs = Except.error msg) :
    Entry.execute reg pil none nowStart nowEnd w self =
      (Entry._update (Entry._update w (Entry.runState self nowStart))
         (Entry.failState (Entry.runState self nowStart) nowEnd msg),
       Entry.failState (Entry.runState self nowStart) nowEnd msg,
       Except.error msg) := by
  rcases hfail with hreg | ⟨integ, hik, herr⟩
  · simp only [Entry.execute, runState_entry_type, hreg]
  · simp only [Entry.execute, runState_entry_type, runState_inputs, hik, herr]

theorem updateRowWith_id (e : Entry) (r : EntryRow) :
    (updateRowWith e r).id = r.id := by
  unfold updateRowWith
  split <;> rfl

theorem find?_map_update (e : Entry) (l : List EntryRow) (i : PyStr) :
    (l.map (updateRowWith e)).find? (fun r => r.id == i) =
      (l.find? (fun r => r.id == i)).map (updateRowWith e) := by
  induction l with
  | nil => rfl
  | cons hd tl ih =>
    simp only [List.map_cons, List.find?_cons, updateRowWith_id]
    cases h : (hd.id == i) with
    | true => rfl
    | false => exact ih

theorem _update_db_find (w : World) (e : Entry) (i : PyStr) :
    findEntryRow (Entry._update w e).db i =
      (findEntryRow w.db i).map (updateRowWith e) :=
  find?_map_update e w.db.entries i

theorem runState_id (self : Entry) (ns : PyStr) :
    (Entry.runState self ns).id = self.id := rfl

theorem failState_id (e : Entry) (nE m : PyStr) :
    (Entry.failState e nE m).id = e.id := rfl

/-- Claim C3, amended: when the integration's `execute` raises — including
the unknown-integration `ValueError` — `Entry.execute` records
`execution.error = str(e)` (the raised exception's message, which equals the
claim's "non-empty message" except for exceptions that stringify to the
empty string), sets `execution.status = "error"`, records
`execution.completed_at`, marks the entry `failed`, persists this state to
the entry's row unconditionally (finally-style), and re-raises; the
unknown-integration message itself is always non-empty. -/
theorem execute_failure_records_error (reg : List (PyStr × Integration))
    (pil : PyBytes → Except Unit PyBytes) (nowStart nowEnd : PyStr)
    (w : World) (self : Entry) (msg : PyStr)
    (hfail : IntegrationRegistry.get reg self.entry_type = Except.error msg ∨
      ∃ integ, IntegrationRegistry.get reg self.entry_type = Except.ok integ ∧
        integ self.inputs = Except.error msg) :
    (Entry.execute reg pil none nowStart nowEnd w self).2.2 =
      Except.error msg ∧
    (Entry.execute reg pil none nowStart nowEnd w self).2.1.status =
      pyStr "failed" ∧
    alookup (Entry.execute reg pil none nowStart nowEnd w self).2.1.execution
      (pyStr "error") = some (Json.str msg) ∧
    alookup (Entry.execute reg pil none nowStart nowEnd w self).2.1.execution
      (pyStr "status") = some (Json.str (pyStr "error")) ∧
    alookup (Entry.execute reg pil none nowStart nowEnd w self).2.1.execution
      (pyStr "completed_at") = some (Json.str nowEnd) ∧
    (∀ r0, findEntryRow w.db self.id = some r0 →
      findEntryRow (Entry.execute reg pil none nowStart nowEnd w self).1.db
          self.id =
        some { r0 with
               title := self.title
               status := pyStr "failed"
               outputs := self.outputs
               execution := (Entry.execute reg pil none nowStart nowEnd w
                 self).2.1.execution
               metrics := self.metrics
               metadata := self.metadata }) ∧
    (∀ t, alookup reg t = none →
      IntegrationRegistry.get reg t =
        Except.error (pyStr "No integration registered for: " ++ t) ∧
      pyStr "No integration registered for: " ++ t ≠ []) := by
  rw [execute_failure_shape reg pil nowStart nowEnd w self msg hfail]
  refine ⟨rfl, rfl, ?_, ?_, ?_, ?_, ?_⟩
  · exact alookup_aset_self _ _ _
  · show alookup (aset _ (pyStr "error") _) (pyStr "status") = _
    rw [alookup_aset_ne _ _ _ _ (by decide)]
    exact alookup_aset_self _ _ _
  · show alookup (aset _ (pyStr "error") _) (pyStr "completed_at") = _
    rw [alookup_aset_ne _ _ _ _ (by decide),
      alookup_aset_ne _ _ _ _ (by decide)]
    exact alookup_aset_self _ _ _
  · intro r0 hr0
    have hr0' : List.find? (fun r => r.id == self.id) w.db.entries = some r0 :=
      hr0
    have hid0 := List.find?_some hr0'
    have hid : (r0.id == self.id) = true := hid0
    rw [_update_db_find, _update_db_find, hr0]
    simp only [Option.map_some']
    unfold updateRowWith
    simp [runState_id, failState_id, hid]
    exact ⟨rfl, rfl, rfl, rfl, rfl⟩
  · intro t ht
    unfold IntegrationRegistry.get
    rw [ht]
    refine ⟨rfl, ?_⟩
    intro hc
    exact absurd (List.append_eq_nil.mp hc).1 (by decide)

theorem execute_failure_records_error_witness :
    (Entry.execute [] pilNone none (pyStr "t1") (pyStr "t2") w0 e0).2.2 =
      Except.error (pyStr "No integration registered for: " ++ pyStr "custom") ∧
    (Entry.execute [] pilNone none (pyStr "t1") (pyStr "t2") w0 e0).2.1.status =
      pyStr "failed" ∧
    alookup (Entry.execute [] pilNone none (pyStr "t1") (pyStr "t2") w0
        e0).2.1.execution (pyStr "error") =
      some (Json.str
        (pyStr "No integration registered for: " ++ pyStr "custom")) ∧
    alookup (Entry.execute [] pilNone none (pyStr "t1") (pyStr "t2") w0
        e0).2.1.execution (pyStr "status") =
      some (Json.str (pyStr "error")) ∧
    alookup (Entry.execute [] pilNone none (pyStr "t1") (pyStr "t2") w0
        e0).2.1.execution (pyStr "completed_at") =
      some (Json.str (pyStr "t2")) ∧
    (∀ r0, findEntryRow w0.db e0.id = some r0 →
      findEntryRow (Entry.execute [] pilNone none (pyStr "t1") (pyStr "t2") w0
          e0).1.db e0.id =
        some { r0 with
               title := e0.title
               status := pyStr "failed"
               outputs := e0.outputs
               execution := (Entry.execute [] pilNone none (pyStr "t1")
                 (pyStr "t2") w0 e0).2.1.execution
               metrics := e0.metrics
               metadata := e0.metadata }) ∧
    (∀ t, alookup ([] : List (PyStr × Integration)) t = none →
      IntegrationRegistry.get [] t =
        Except.error (pyStr "No integration registered for: " ++ t) ∧
      pyStr "No integration registered for: " ++ t ≠ []) :=
  execute_failure_records_error [] pilNone (pyStr "t1") (pyStr "t2") w0 e0
    (pyStr "No integration registered for: " ++ pyStr "custom") (Or.inl rfl)

/-- An integration for entry type `custom` that raises an exception whose
`str(e)` is the empty string (e.g. `raise ValueError()`). -/
def regEmptyErr : List (PyStr × Integration) :=
  [(pyStr "custom", fun _ => Except.error [])]

/-- Claim C3 counterexample: the claim asserts `execution.error` is set to a
non-empty message for every exception raised by the integration's `execute`,
but an exception that stringifies to the empty string (such as
`ValueError()`) leaves `execution.error = ""`. -/
theorem execute_error_message_can_be_empty :
    alookup (Entry.execute regEmptyErr pilNone none (pyStr "t1") (pyStr "t2")
      w0 e0).2.1.execution (pyStr "error") = some (Json.str []) := by
  rfl

/-! ## Claim C4: variation lineage -/

theorem findPage_id {db : DB} {pid : PyStr} {pg : PageRow}
    (h : findPage db pid = some pg) : pg.id = pid := by
  have h' : List.find? (fun r => r.id == pid) db.pages = some pg := h
  have hb := List.find?_some h'
  exact eq_of_beq hb

theorem findPage_pageExists {db : DB} {pid : PyStr} {pg : PageRow}
    (h : findPage db pid = some pg) : pageExists db pg.id = true := by
  have h' : List.find? (fun r => r.id == pid) db.pages = some pg := h
  have hm := List.mem_of_find?_eq_some h'
  exact List.any_eq_true.mpr ⟨pg, hm, by simp⟩

theorem any_id_map_update (e : Entry) (l : List EntryRow) (i : PyStr) :
    (l.map (updateRowWith e)).any (fun r => r.id == i) =
      l.any (fun r => r.id == i) := by
  induction l with
  | nil => rfl
  | cons hd tl ih => simp only [List.map_cons, List.any_cons, updateRowWith_id, ih]

/-- The tag list passed by `create_variation` (`tags or self.tags`). -/
def cvTags (self : Entry) (tags : Option (List PyStr)) : List PyStr :=
  match tags with
  | some ts => if ts.isEmpty then self.tags else ts
  | none => self.tags

/-- The variation entry returned by a successful `create_variation`: the
freshly created entry with `parent_id` set retroactively on the dataclass. -/
def cvEntry (self : Entry) (vid title : PyStr) (ov : Dict)
    (tags : Option (List PyStr)) (pg : PageRow) : Entry :=
  { Entry.newEntry vid pg self.entry_type title (mergeInputs self.inputs ov)
      none (cvTags self tags) with
    parent_id := some self.id }

theorem cvEntry_page_id (self : Entry) (vid title : PyStr) (ov : Dict)
    (tags : Option (List PyStr)) (pg : PageRow) :
    (cvEntry self vid title ov tags pg).page_id = pg.id := rfl

theorem newRow_id (entry_id : PyStr) (page : PageRow)
    (entry_type title : PyStr) (inputs : Dict) (parent_id : Option PyStr)
    (tagList : List PyStr) :
    (Entry.newRow entry_id page entry_type title inputs parent_id
      tagList).id = entry_id := rfl

theorem newEntry_page_id (entry_id : PyStr) (page : PageRow)
    (entry_type title : PyStr) (inputs : Dict) (parent_id : Option PyStr)
    (tagList : List PyStr) :
    (Entry.newEntry entry_id page entry_type title inputs parent_id
      tagList).page_id = page.id := rfl

theorem newEntry_id (entry_id : PyStr) (page : PageRow)
    (entry_type title : PyStr) (inputs : Dict) (parent_id : Option PyStr)
    (tagList : List PyStr) :
    (Entry.newEntry entry_id page entry_type title inputs parent_id
      tagList).id = entry_id := rfl

theorem cvEntry_id (self : Entry) (vid title : PyStr) (ov : Dict)
    (tags : Option (List PyStr)) (pg : PageRow) :
    (cvEntry self vid title ov tags pg).id = vid := rfl

/-- The entries-table row inserted for the variation (NULL `parent_id`). -/
def cvRow (self : Entry) (vid title : PyStr) (ov : Dict)
    (tags : Option (List PyStr)) (pg : PageRow) : EntryRow :=
  Entry.newRow vid pg self.entry_type title (mergeInputs self.inputs ov)
    none (cvTags self tags)

/-- The world after a successful `create_variation`: the row inserted and
then partially re-written by `_update` (whose column list omits
`parent_id`), the Git manifest written twice (creation manifest, then the
`_update` manifest carrying `parent_id`), and one `variation_of` edge
appended. -/
def cvWorld (w : World) (self : Entry) (vid title : PyStr) (ov : Dict)
    (tags : Option (List PyStr)) (pg : PageRow) : World :=
  { w with
    db := { w.db with
            entries := (w.db.entries ++ [cvRow self vid title ov tags pg]).map
              (updateRowWith (cvEntry self vid title ov tags pg))
            lineage := w.db.lineage ++
              [⟨self.id, vid, pyStr "variation_of"⟩] }
    git := aset
      (aset w.git vid (Entry.toDict (Entry.newEntry vid pg
        self.entry_type title (mergeInputs self.inputs ov) none
        (cvTags self tags))))
      vid (Entry.toDict (cvEntry self vid title ov tags pg)) }

theorem cvWorld_entries (w : World) (self : Entry) (vid title : PyStr)
    (ov : Dict) (tags : Option (List PyStr)) (pg : PageRow) :
    (cvWorld w self vid title ov tags pg).db.entries =
      (w.db.entries ++ [cvRow self vid title ov tags pg]).map
        (updateRowWith (cvEntry self vid title ov tags pg)) := rfl

theorem cvWorld_lineage (w : World) (self : Entry) (vid title : PyStr)
    (ov : Dict) (tags : Option (List PyStr)) (pg : PageRow) :
    (cvWorld w self vid title ov tags pg).db.lineage =
      w.db.lineage ++ [⟨self.id, vid, pyStr "variation_of"⟩] := rfl

theorem cvWorld_git (w : World) (self : Entry) (vid title : PyStr)
    (ov : Dict) (tags : Option (List PyStr)) (pg : PageRow) :
    (cvWorld w self vid title ov tags pg).git =
      aset
        (aset w.git vid (Entry.toDict (Entry.newEntry vid pg
          self.entry_type title (mergeInputs self.inputs ov) none
          (cvTags self tags))))
        vid (Entry.toDict (cvEntry self vid title ov tags pg)) := rfl

theorem cvRow_id (self : Entry) (vid title : PyStr) (ov : Dict)
    (tags : Option (List PyStr)) (pg : PageRow) :
    (cvRow self vid title ov tags pg).id = vid := rfl

/-- A successful `create_variation`, reduced to its net effect. -/
theorem create_variation_ok (w : World) (self : Entry) (vid title : PyStr)
    (ov : Dict) (tags : Option (List PyStr)) (pg : PageRow)
    (hpage : findPage w.db self.page_id = some pg)
    (hvid : entryExists w.db vid = false)
    (hselfex : entryExists w.db self.id = true)
    (hpair : w.db.lineage.any
      (fun r => r.parent_id == self.id && r.child_id == vid) = false) :
    Entry.create_variation w self vid title ov tags =
      Except.ok (cvWorld w self vid title ov tags pg,
        cvEntry self vid title ov tags pg) := by
  have hpgex : pageExists w.db pg.id = true := findPage_pageExists hpage
  have hpgid : pg.id = self.page_id := findPage_id hpage
  have hselfex' : w.db.entries.any (fun r => r.id == self.id) = true := hselfex
  have hvid' : w.db.entries.any (fun r => r.id == vid) = false := hvid
  have hpage' : List.find? (fun r => r.id == self.page_id) w.db.pages =
      some pg := hpage
  unfold Entry.create_variation
  rw [hpage]
  dsimp only
  unfold Entry.create
  dsimp only
  rw [if_pos hpgex, if_pos rfl,
    if_neg (by simp [hvid] : ¬(entryExists w.db vid = true))]
  dsimp only
  unfold Entry._update EntryLineageModel.create
  dsimp only
  simp only [entryExists, any_id_map_update, List.any_append, hselfex',
    hvid', List.any_cons, List.any_nil, updateRowWith_id, newRow_id,
    newEntry_page_id, newEntry_id, beq_self_eq_true, Bool.true_and,
    Bool.true_or, Bool.or_false, Bool.false_or, Bool.or_true, if_true,
    hpgid, findPage, hpage', alookup_aset_self, Option.isSome_some, hpair,
    Bool.false_eq_true, if_false]
  simp [cvWorld, cvRow, cvEntry, cvTags, Entry.newEntry, Entry.newRow,
    Entry.toDict, createMetadata, hpgid, findPage, hpage']

theorem find?_append_none {α : Type} {p : α → Bool} {l1 : List α}
    (l2 : List α) (h : l1.find? p = none) :
    (l1 ++ l2).find? p = l2.find? p := by
  induction l1 with
  | nil => rfl
  | cons hd tl ih =>
    rw [List.cons_append]
    simp only [List.find?_cons] at h ⊢
    rcases Bool.eq_false_or_eq_true (p hd) with hph | hph
    · rw [hph] at h
      simp at h
    · rw [hph] at h ⊢
      exact ih h

theorem find?_append_some {α : Type} {p : α → Bool} {l1 : List α}
    (l2 : List α) {a : α} (h : l1.find? p = some a) :
    (l1 ++ l2).find? p = some a := by
  induction l1 with
  | nil => simp [List.find?] at h
  | cons hd tl ih =>
    rw [List.cons_append]
    simp only [List.find?_cons] at h ⊢
    rcases Bool.eq_false_or_eq_true (p hd) with hph | hph
    · rw [hph] at h ⊢
      exact h
    · rw [hph] at h ⊢
      exact ih h

theorem find?_entries_of_any_false {l : List EntryRow} {i : PyStr}
    (h : l.any (fun r => r.id == i) = false) :
    l.find? (fun r => r.id == i) = none := by
  apply List.find?_eq_none.mpr
  intro r hr
  have := List.any_eq_false.mp h r hr
  simpa using this

theorem updateRowWith_parent_id (e : Entry) (r : EntryRow) :
    (updateRowWith e r).parent_id = r.parent_id := by
  unfold updateRowWith
  split <;> rfl

/-- Claim C4, amended: `create_variation` returns an entry B with
`B.parent_id = A.id` on the dataclass, and the `_update` persistence step
writes that `parent_id` into the Git manifest but not into the entries-table
row, whose `parent_id` column stays NULL (the partial-field UPDATE omits
`parent_id`); exactly one lineage edge is created for the pair, of type
`variation_of` (no `derives_from` edge), and `ancestors(B, depth=1)` is
exactly `[A]`, reached via that edge. -/
theorem create_variation_lineage (w : World) (self : Entry)
    (vid title : PyStr) (ov : Dict) (tags : Option (List PyStr))
    (pg : PageRow) (rA : EntryRow)
    (hpage : findPage w.db self.page_id = some pg)
    (hvid : entryExists w.db vid = false)
    (hself : findEntryRow w.db self.id = some rA)
    (hstray : w.db.lineage.filter (fun r => r.child_id == vid) = []) :
    ∃ w' B, Entry.create_variation w self vid title ov tags =
        Except.ok (w', B) ∧
      B.parent_id = some self.id ∧
      (∃ r', findEntryRow w'.db vid = some r' ∧ r'.parent_id = none) ∧
      (alookup w'.git vid).map EntrySnapshot.parent_id =
        some (some self.id) ∧
      (w'.db.lineage.filter (fun r =>
        r.parent_id == self.id && r.child_id == vid)).map
        LineageRow.relationship_type = [pyStr "variation_of"] ∧
      ancestorsOf w'.db vid 1 = [rA] := by
  have hself' : List.find? (fun r => r.id == self.id) w.db.entries =
      some rA := hself
  have hrAmem : rA ∈ w.db.entries := List.mem_of_find?_eq_some hself'
  have hbeq := List.find?_some hself'
  have hselfex : entryExists w.db self.id = true :=
    List.any_eq_true.mpr ⟨rA, hrAmem, hbeq⟩
  have hstray' : ∀ r ∈ w.db.lineage, ¬(r.child_id == vid) = true :=
    List.filter_eq_nil_iff.mp hstray
  have hpair : w.db.lineage.any
      (fun r => r.parent_id == self.id && r.child_id == vid) = false := by
    apply List.any_eq_false.mpr
    intro r hr hcon
    exact hstray' r hr (Bool.and_elim_right hcon)
  have hvid' : ∀ r ∈ w.db.entries, ¬(r.id == vid) = true :=
    fun r hr => by simpa using List.any_eq_false.mp hvid r hr
  have hrAvid : (rA.id == vid) = false :=
    Bool.eq_false_iff.mpr (hvid' rA hrAmem)
  have hcv := create_variation_ok w self vid title ov tags pg hpage hvid
    hselfex hpair
  refine ⟨cvWorld w self vid title ov tags pg,
    cvEntry self vid title ov tags pg, hcv, rfl, ?_, ?_, ?_, ?_⟩
  · -- the variation's database row keeps parent_id = NULL
    refine ⟨updateRowWith (cvEntry self vid title ov tags pg)
      (cvRow self vid title ov tags pg), ?_, ?_⟩
    · simp only [findEntryRow, cvWorld_entries]
      rw [find?_map_update,
        find?_append_none _ (find?_entries_of_any_false hvid)]
      simp [List.find?_cons, cvRow_id]
    · rw [updateRowWith_parent_id]
      rfl
  · -- the Git manifest written by _update carries parent_id = A.id
    rw [cvWorld_git, alookup_aset_self]
    rfl
  · -- exactly one (A, B) edge, and it is variation_of
    rw [cvWorld_lineage, List.filter_append,
      List.filter_eq_nil_iff.mpr (fun r hr hcon =>
        hstray' r hr (Bool.and_elim_right hcon))]
    simp
  · -- ancestors(B, 1) = [A]
    have hedges : edgesInto (cvWorld w self vid title ov tags pg).db [vid] =
        [⟨self.id, vid, pyStr "variation_of"⟩] := by
      simp only [edgesInto, cvWorld_lineage, List.flatMap_cons,
        List.flatMap_nil, List.append_nil, List.filter_append, hstray]
      simp
    have hupdA : updateRowWith (cvEntry self vid title ov tags pg) rA = rA := by
      unfold updateRowWith
      rw [cvEntry_id, hrAvid]
      simp
    have hfindA : findEntryRow (cvWorld w self vid title ov tags pg).db
        self.id = some rA := by
      simp only [findEntryRow, cvWorld_entries]
      rw [find?_map_update, find?_append_some _ hself']
      simp only [Option.map_some', hupdA]
    simp only [ancestorsOf, ancestorsLoop, List.isEmpty_cons,
      Bool.false_eq_true, if_false, hedges, List.map_cons, List.map_nil,
      levelRows, List.filterMap_cons, List.filterMap_nil, hfindA,
      List.nil_append, List.append_nil]

theorem create_variation_lineage_witness :
    ∃ w' B, Entry.create_variation w0 e0 (pyStr "B") (pyStr "var") [] none =
        Except.ok (w', B) ∧
      B.parent_id = some e0.id ∧
      (∃ r', findEntryRow w'.db (pyStr "B") = some r' ∧
        r'.parent_id = none) ∧
      (alookup w'.git (pyStr "B")).map EntrySnapshot.parent_id =
        some (some e0.id) ∧
      (w'.db.lineage.filter (fun r =>
        r.parent_id == e0.id && r.child_id == pyStr "B")).map
        LineageRow.relationship_type = [pyStr "variation_of"] ∧
      ancestorsOf w'.db (pyStr "B") 1 = [chainRow (pyStr "A")] :=
  create_variation_lineage w0 e0 (pyStr "B") (pyStr "var") [] none
    ⟨pyStr "P", pyStr "N", pyStr "P"⟩ (chainRow (pyStr "A")) rfl rfl rfl rfl

/-- Claim C4 counterexample: after `create_variation`, the returned entry
carries `parent_id = A.id` in memory, but the variation's entries-table row
— the stored record the partial-field `_update` writes — still has
`parent_id = NULL`, so the `parent_id` field update is not persisted to the
database row. -/
theorem create_variation_parent_id_not_in_db_row :
    (Entry.create_variation w0 e0 (pyStr "B") (pyStr "var") [] none
        ).toOption.map
      (fun p => (p.2.parent_id,
        (findEntryRow p.1.db (pyStr "B")).map EntryRow.parent_id)) =
      some (some (pyStr "A"), some none) := by
  rfl
